import Mathlib

/-!
Shallow embedding of the core of `gmail-newsletter-manager` (Python) in Lean 4,
together with theorems settling the frozen claims about its specification.

Embedded components (each definition is translated from the named Python
source):
* `newsletter_detector.py` — `NewsletterDetector.is_newsletter`,
  `_get_headers`, `_get_from_email`, `_extract_domain`, `_is_bulk_sender`,
  `categorize_newsletter`;
* `database.py` — `Database.upsert_newsletter`, `Database.add_message`
  over a list model of the SQLite tables;
* `gogcli_wrapper.py` — `GogCLI.search_all_messages` over an oracle model of
  the paginated message source (each call to `search_messages` consumes the
  next oracle entry; `time.sleep` calls are logged, not performed);
* `topic_modeler.py` — the readiness guards of `TopicModeler.train`,
  `predict_topic`, `get_topic_distribution`, `save_model`, `load_model`
  (the sklearn/numpy numeric kernel is floating point and is abstracted as an
  explicit function parameter; every guard is source-faithful).
-/

namespace NewsletterManager

/-! ## String utilities

Python's `pat in s` substring test, `str.lower`, `str.strip("<>")` and
`re`-based helpers used by the detector. -/

/-- `infixOf pat s = true` iff the character list `pat` occurs contiguously
inside `s` (Python's `pat in s` on strings). -/
def infixOf (pat : List Char) : List Char → Bool
  | [] => pat.isEmpty
  | c :: rest => pat.isPrefixOf (c :: rest) || infixOf pat rest

/-- Python's substring containment `pat in hay`. -/
def strContains (hay pat : String) : Bool :=
  infixOf pat.toList hay.toList

/-- Python `str.lower` (ASCII case folding, per character). -/
def strLower (s : String) : String :=
  String.mk (s.toList.map Char.toLower)

/-- Python `str.split(sep)` for a one-character separator: split at every
occurrence, keeping empty segments (`"".split(sep) == [""]`). -/
def splitOnChar (sep : Char) : List Char → List (List Char)
  | [] => [[]]
  | c :: rest =>
    if c == sep then [] :: splitOnChar sep rest
    else
      match splitOnChar sep rest with
      | [] => [[c]]
      | x :: xs => (c :: x) :: xs

/-- Python `str.strip("<>")`: remove any leading and trailing `<` / `>`. -/
def stripAngles (s : String) : String :=
  let isAngle : Char → Bool := fun c => c == '<' || c == '>'
  let l := s.toList.dropWhile isAngle
  String.mk ((l.reverse.dropWhile isAngle).reverse)

/-- Leftmost match of the regex `<([^>]+)>` (Python `re.search`), returning
the captured group: the first `<` that is followed by at least one non-`>`
character and then a `>`. -/
def extractAngle : List Char → Option (List Char)
  | [] => none
  | c :: rest =>
    if c == '<' then
      let inner := rest.takeWhile (fun d => !(d == '>'))
      if !inner.isEmpty && !(rest.dropWhile (fun d => !(d == '>'))).isEmpty then
        some inner
      else
        extractAngle rest
    else
      extractAngle rest

/-! ## Detection engine (`newsletter_detector.py`) -/

/-- `NewsletterDetector.NEWSLETTER_INDICATORS`. -/
def NEWSLETTER_INDICATORS : List String :=
  ["list-unsubscribe", "newsletter", "digest", "weekly", "daily", "monthly",
   "update", "roundup", "briefing", "subscription", "mailing list"]

/-- `NewsletterDetector.NEWSLETTER_PLATFORMS`. -/
def NEWSLETTER_PLATFORMS : List String :=
  ["substack.com", "beehiiv.com", "mailchimp.com", "constantcontact.com",
   "convertkit.com", "buttondown.email", "ghost.io", "revue.com",
   "sendfox.com", "mailerlite.com", "sendgrid.net", "list-manage.com",
   "campaignmonitor.com"]

/-- The fixed `newsletter_keywords` list inside `is_newsletter`. -/
def newsletterKeywords : List String :=
  ["unsubscribe", "view in browser", "preference center",
   "manage subscription", "view online"]

/-- The configuration slice the detector reads: `config.get_newsletter_patterns()`
and `config.get_known_platforms()`. -/
structure DetectorConfig where
  patterns : List String
  platforms : List String

/-- `DEFAULT_CONFIG["newsletter_patterns"]` from `config.py`. -/
def defaultNewsletterPatterns : List String :=
  ["list-unsubscribe", "newsletter", "digest", "weekly update",
   "monthly roundup", "daily brief", "notification", "subscription"]

/-- `DEFAULT_CONFIG["known_platforms"]` from `config.py`. -/
def defaultKnownPlatforms : List String :=
  ["substack.com", "beehiiv.com", "mailchimp.com", "constantcontact.com",
   "convertkit.com", "buttondown.email", "ghost.io", "revue.com",
   "sendfox.com", "mailerlite.com"]

/-- The detector built from `config.py`'s `DEFAULT_CONFIG`. -/
def defaultConfig : DetectorConfig :=
  ⟨defaultNewsletterPatterns, defaultKnownPlatforms⟩

/-- A message dictionary as consumed by `is_newsletter`: either the flat
"thread" shape (a `from` key and no `payload` key) or the "full message"
shape (a `payload` dict that may carry a `headers` list).  Each field is
`Option`al exactly like the corresponding dict key. -/
structure EmailMessage where
  fromField : Option String := none
  /-- `payload` key; its value may or may not carry a `headers` list of
  `{name, value}` dicts. -/
  payload : Option (Option (List (String × String))) := none
  subject : Option String := none
  labels : Option (List String) := none
  snippet : Option String := none

/-- `NewsletterDetector._get_headers`: lower-cases header names and builds a
dict, a later header with the same (lowered) name overwriting an earlier
one.  `headerLookup hs n` is `headers_dict.get(n)`. -/
def headerLookup (hs : List (String × String)) (name : String) : Option String :=
  hs.foldl (fun acc h => if strLower h.1 == name then some h.2 else acc) none

/-- Headers list of a message (`message["payload"]["headers"]` when both
keys are present, else nothing). -/
def getHeadersList (m : EmailMessage) : List (String × String) :=
  match m.payload with
  | some (some hs) => hs
  | _ => []

/-- `"from" in message and "payload" not in message`. -/
def isThreadShape (m : EmailMessage) : Bool :=
  m.fromField.isSome && m.payload.isNone

/-- `NewsletterDetector._get_from_email`. -/
def getFromEmail (m : EmailMessage) : String :=
  if isThreadShape m then
    let fromHeader := m.fromField.getD ""
    match extractAngle fromHeader.toList with
    | some inner => strLower (String.mk inner)
    | none => strLower (stripAngles fromHeader)
  else
    let fromHeader := (headerLookup (getHeadersList m) "from").getD ""
    match extractAngle fromHeader.toList with
    | some inner => strLower (String.mk inner)
    | none => strLower (stripAngles fromHeader)

/-- `NewsletterDetector._extract_domain`. -/
def extractDomain (email : String) : String :=
  if strContains email "@" then
    strLower (String.mk ((splitOnChar '@' email.toList).getD 1 []))
  else
    ""

/-- The literal substrings matched by `_is_bulk_sender`'s regex set
(`no-?reply@`, `newsletter@`, `notifications?@`, `digest@`, `updates?@`,
`news@`, `hello@`, `hi@`, `team@`), expanded over the optional characters. -/
def bulkSenderSubstrings : List String :=
  ["noreply@", "no-reply@", "newsletter@", "notification@", "notifications@",
   "digest@", "update@", "updates@", "news@", "hello@", "hi@", "team@"]

/-- `NewsletterDetector._is_bulk_sender` (`re.search` with `IGNORECASE` of
literal patterns is containment of the lowered literal in the lowered text). -/
def isBulkSender (email : String) : Bool :=
  bulkSenderSubstrings.any (fun p => strContains (strLower email) p)

/-- The List-Unsubscribe check of `is_newsletter` (full-message shape only). -/
def unsubReasons (m : EmailMessage) : List String :=
  if !isThreadShape m && (headerLookup (getHeadersList m) "list-unsubscribe").isSome then
    ["has_list_unsubscribe_header"]
  else []

/-- The platform loop of `is_newsletter`: the first configured or built-in
platform domain contained in the sender domain (the loop `break`s on it). -/
def platformMatch (cfg : DetectorConfig) (m : EmailMessage) : Option String :=
  (cfg.platforms ++ NEWSLETTER_PLATFORMS).find?
    (fun d => strContains (extractDomain (getFromEmail m)) d)

/-- The reason recorded by the platform loop. -/
def platformReasons (cfg : DetectorConfig) (m : EmailMessage) : List String :=
  match platformMatch cfg m with
  | some d => ["from_platform:" ++ d]
  | none => []

/-- The subject-pattern loop of `is_newsletter`: one reason per configured
or built-in pattern whose lowering occurs in the lowered subject. -/
def subjectReasons (cfg : DetectorConfig) (m : EmailMessage) : List String :=
  (cfg.patterns ++ NEWSLETTER_INDICATORS).filterMap
    (fun p =>
      if strContains (strLower (m.subject.getD "")) (strLower p) then
        some ("subject_contains:" ++ p)
      else none)

/-- The Gmail category-label checks of `is_newsletter` (thread shape only). -/
def labelReasons (m : EmailMessage) : List String :=
  if isThreadShape m then
    (if (m.labels.getD []).contains "CATEGORY_PROMOTIONS" then
      ["promotional_category"] else [])
      ++ (if (m.labels.getD []).contains "CATEGORY_UPDATES" then
        ["updates_category"] else [])
  else []

/-- The snippet value used by `is_newsletter`
(`message.get("snippet", "").lower() if "snippet" in message else ""`). -/
def snippetText (m : EmailMessage) : String :=
  match m.snippet with
  | some s => strLower s
  | none => ""

/-- The boilerplate-keyword loop of `is_newsletter` over the snippet. -/
def bodyReasons (m : EmailMessage) : List String :=
  newsletterKeywords.filterMap
    (fun k => if strContains (snippetText m) k then some ("body_contains:" ++ k) else none)

/-- The bulk-sender check of `is_newsletter`. -/
def bulkReasons (m : EmailMessage) : List String :=
  if isBulkSender (getFromEmail m) then ["bulk_sender_pattern"] else []

/-- The full reason list accumulated by `is_newsletter`, in source order. -/
def detectReasons (cfg : DetectorConfig) (m : EmailMessage) : List String :=
  unsubReasons m ++ platformReasons cfg m ++ subjectReasons cfg m
    ++ labelReasons m ++ bodyReasons m ++ bulkReasons m

/-- `NewsletterDetector.is_newsletter`, returning
`(is_newsletter, platform, reasons)`: newsletter iff at least 2 reasons, or
the List-Unsubscribe reason, or any reason containing `from_platform:`. -/
def isNewsletter (cfg : DetectorConfig) (m : EmailMessage) :
    Bool × Option String × List String :=
  let reasons := detectReasons cfg m
  let verdict :=
    decide (2 ≤ reasons.length)
      || reasons.contains "has_list_unsubscribe_header"
      || reasons.any (fun r => strContains r "from_platform:")
  (verdict, platformMatch cfg m, reasons)

/-- One configured category: `name → {keywords, domains}` from
`config.get_categories()` (a Python dict, so names are distinct and the list
order is the dict's iteration order). -/
structure Category where
  name : String
  keywords : List String
  domains : List String

/-- The per-category score accumulated by `categorize_newsletter`'s loops:
`+5` per configured domain contained in the lowered sender, and for each
keyword `+2` if its lowering is in the lowered subject and `+1` if it is in
the lowered sender. -/
def catScore (c : Category) (senderLower subjectLower : String) : Nat :=
  let domScore := c.domains.foldl
    (fun acc d => if strContains senderLower d then acc + 5 else acc) 0
  c.keywords.foldl
    (fun acc k =>
      let acc := if strContains subjectLower (strLower k) then acc + 2 else acc
      if strContains senderLower (strLower k) then acc + 1 else acc)
    domScore

/-- The `category_scores` dict of `categorize_newsletter` as an association
list: a `defaultdict(int)` is keyed in first-increment order, which is the
configured category order restricted to categories with a positive score
(every increment is positive). -/
def scoredCategories (cats : List Category) (senderLower subjectLower : String) :
    List (String × Nat) :=
  cats.filterMap
    (fun c =>
      let s := catScore c senderLower subjectLower
      if 0 < s then some (c.name, s) else none)

/-- Python's `max(category_scores.items(), key=lambda x: x[1])`: the first
entry with the maximal score (`max` keeps the earlier of equals), `none` on
an empty dict. -/
def pickBest : List (String × Nat) → Option (String × Nat)
  | [] => none
  | x :: xs => some (xs.foldl (fun b y => if b.2 < y.2 then y else b) x)

/-- `NewsletterDetector.categorize_newsletter`: the best-scoring category if
its score passes the minimum threshold 3, else `None`. -/
def categorizeNewsletter (cats : List Category) (senderEmail subject : String) :
    Option String :=
  match pickBest (scoredCategories cats (strLower senderEmail) (strLower subject)) with
  | some best => if 3 ≤ best.2 then some best.1 else none
  | none => none

/-! ## Corpus store (`database.py`)

The SQLite tables are modelled as lists of rows.  `sender_email` carries a
`UNIQUE` constraint in the schema; `upsert_newsletter` reads the first row
matching the email (`fetchone`) and the SQL `UPDATE ... WHERE sender_email = ?`
rewrites every matching row.  `AUTOINCREMENT` ids are modelled by a `nextId`
counter, and `datetime.now()` by an explicit `now` argument per call. -/

/-- One row of the `newsletters` table (the columns touched or returned by
the modelled operations; `unread_count`, `read_count` keep their schema
defaults and `frequency_estimate`, a `REAL` never written by
`upsert_newsletter`, is omitted). -/
structure NewsletterRow where
  id : Nat
  sender_email : String
  sender_name : Option String
  category : Option String
  subcategory : Option String
  platform : Option String
  first_seen : String
  last_seen : String
  total_count : Nat
  unread_count : Nat
  read_count : Nat
  auto_categorized : Bool
  created_at : String
  updated_at : String

/-- The `newsletters` table plus the `AUTOINCREMENT` cursor. -/
structure NewslettersTable where
  rows : List NewsletterRow
  nextId : Nat

/-- The non-key arguments of one `upsert_newsletter` call, plus the value
`datetime.now()` takes during that call. -/
structure UpsertArgs where
  now : String
  sender_name : Option String := none
  category : Option String := none
  subcategory : Option String := none
  platform : Option String := none
  first_seen : Option String := none
  last_seen : Option String := none
  auto_categorized : Bool := false

/-- Python truthiness of an optional string (`None` and `""` are falsy). -/
def optTruthy : Option String → Bool
  | none => false
  | some s => !s.isEmpty

/-- Python `x or default` for an optional string argument. -/
def pyOr (o : Option String) (default : String) : String :=
  match o with
  | none => default
  | some s => if s.isEmpty then default else s

/-- Overwrite-if-truthy, as in the update branch's
`if value: update_fields.append(...)`. -/
def ovw (o : Option String) (old : String) : String :=
  if optTruthy o then o.getD old else old

/-- Overwrite-if-truthy for a nullable column. -/
def ovwOpt (o : Option String) (old : Option String) : Option String :=
  if optTruthy o then o else old

/-- The update branch of `upsert_newsletter` applied to the existing row:
`total_count` is incremented, `updated_at` bumped, each truthy argument
overwrites its column, and a true `auto_categorized` argument sets the flag. -/
def applyUpdate (a : UpsertArgs) (r : NewsletterRow) : NewsletterRow :=
  { r with
    total_count := r.total_count + 1
    updated_at := a.now
    last_seen := ovw a.last_seen r.last_seen
    sender_name := ovwOpt a.sender_name r.sender_name
    category := ovwOpt a.category r.category
    subcategory := ovwOpt a.subcategory r.subcategory
    platform := ovwOpt a.platform r.platform
    auto_categorized := r.auto_categorized || a.auto_categorized }

/-- The insert branch of `upsert_newsletter`: `first_seen`/`last_seen`
default to `now`, `total_count` takes the schema default `1`. -/
def insertRow (a : UpsertArgs) (e : String) (id : Nat) : NewsletterRow :=
  { id := id
    sender_email := e
    sender_name := a.sender_name
    category := a.category
    subcategory := a.subcategory
    platform := a.platform
    first_seen := pyOr a.first_seen a.now
    last_seen := pyOr a.last_seen a.now
    total_count := 1
    unread_count := 0
    read_count := 0
    auto_categorized := a.auto_categorized
    created_at := a.now
    updated_at := a.now }

/-- The SQL `UPDATE newsletters SET ... WHERE sender_email = ?`: rewrite
every row matching the email. -/
def updateRows (e : String) (a : UpsertArgs) (rows : List NewsletterRow) :
    List NewsletterRow :=
  rows.map (fun x => if x.sender_email == e then applyUpdate a x else x)

/-- `Database.upsert_newsletter`, returning the new table and the returned
newsletter id. -/
def upsertNewsletter (db : NewslettersTable) (e : String) (a : UpsertArgs) :
    NewslettersTable × Nat :=
  match db.rows.find? (fun r => r.sender_email == e) with
  | some r => ({ db with rows := updateRows e a db.rows }, r.id)
  | none =>
    ({ rows := db.rows ++ [insertRow a e db.nextId], nextId := db.nextId + 1 },
      db.nextId)

/-- A sequence of `upsert_newsletter` calls for one sender, collecting the
returned ids in call order. -/
def applyUpserts (e : String) : NewslettersTable → List UpsertArgs →
    NewslettersTable × List Nat
  | db, [] => (db, [])
  | db, a :: rest =>
    let (db', i) := upsertNewsletter db e a
    let (db'', is) := applyUpserts e db' rest
    (db'', i :: is)

/-- The rows of the table holding a given sender email. -/
def rowsFor (db : NewslettersTable) (e : String) : List NewsletterRow :=
  db.rows.filter (fun r => r.sender_email == e)

/-- One row of the `messages` table.  The `labels` column stores
`json.dumps(labels)` or `NULL`; it is modelled by the decoded optional list. -/
structure MessageRow where
  id : String
  newsletter_id : Nat
  subject : String
  received_date : String
  is_read : Bool
  is_archived : Bool
  has_unsubscribe_link : Bool
  labels : Option (List String)

/-- The non-key arguments of one `add_message` call. -/
structure AddMessageArgs where
  newsletter_id : Nat
  subject : String
  received_date : String
  is_read : Bool := false
  labels : Option (List String) := none

/-- The row written by `add_message`: unspecified columns take their schema
defaults, and `labels` is `json.dumps(labels) if labels else None`, so a
missing or empty list is stored as `NULL`. -/
def messageRowOf (mid : String) (a : AddMessageArgs) : MessageRow :=
  { id := mid
    newsletter_id := a.newsletter_id
    subject := a.subject
    received_date := a.received_date
    is_read := a.is_read
    is_archived := false
    has_unsubscribe_link := false
    labels := match a.labels with
      | some l => if l.isEmpty then none else some l
      | none => none }

/-- `Database.add_message`: `INSERT OR REPLACE` keyed by the `id` primary
key deletes any row with that id and inserts the new one. -/
def addMessage (tbl : List MessageRow) (mid : String) (a : AddMessageArgs) :
    List MessageRow :=
  tbl.filter (fun r => !(r.id == mid)) ++ [messageRowOf mid a]

/-- A sequence of `add_message` calls for one message id. -/
def applyAddMessages (mid : String) (tbl : List MessageRow) :
    List AddMessageArgs → List MessageRow
  | [] => tbl
  | a :: rest => applyAddMessages mid (addMessage tbl mid a) rest

/-! ## Fetch orchestrator (`gogcli_wrapper.py`)

`GogCLI.search_all_messages` is embedded over an *oracle* model of the
message source: every call to `search_messages` consumes the next entry of a
response list (a successful page or a raised `GogCLIError` string).
`time.sleep(wait_time)` in the retry path is logged in a wait trace instead
of performed (the adaptive pacing sleep before each page, whose duration is a
float and is irrelevant to the claims, is not logged).  The page token passed
to each `search_messages` call is logged in a call trace. -/

/-- One response of the message source: a page (`threads` plus optional
`nextPageToken`) or a raised `GogCLIError` with its message text. -/
inductive PageResp (M : Type) where
  | ok (threads : List M) (nextTok : Option String)
  | err (msg : String)

/-- `'rateLimitExceeded' in error_str or '429' in error_str or '403' in
error_str`. -/
def isRateLimitError (e : String) : Bool :=
  strContains e "rateLimitExceeded" || strContains e "429" || strContains e "403"

/-- Python falsiness of the `nextPageToken` value (`None` or `""`). -/
def tokFalsy : Option String → Bool
  | none => true
  | some s => s.isEmpty

/-- `max_retries` in `search_all_messages`. -/
def maxRetries : Nat := 5

/-- Result of the inner `for retry in range(max_retries)` loop:

* `outcome = some (.ok (threads, tok))` — a page was fetched
  (`consecutive_failures` was reset to `0`);
* `outcome = some (.error e)` — the loop re-raised `e`;
* `outcome = none` — the oracle ran out of responses (the run is not
  modelled beyond this point).

`rest` is the unconsumed oracle, `waits` the backoff sleeps performed,
`calls` the page tokens passed to `search_messages`, `consec` the value of
`consecutive_failures` afterwards. -/
structure RetryOut (M : Type) where
  outcome : Option (Except String (List M × Option String))
  rest : List (PageResp M)
  waits : List Nat
  calls : List (Option String)
  consec : Nat

/-- The retry loop of `search_all_messages`.  `remaining` is the number of
iterations the `range(max_retries)` loop still has (`retryIdx + remaining =
maxRetries`); a rate-limit error with `retry < max_retries - 1` sleeps
`(retry + 2) * 20` and continues, a rate-limit error on the last iteration
and any other error re-raise. -/
def retryFetch {M : Type} (tok : Option String) :
    Nat → Nat → Nat → List (PageResp M) → RetryOut M
  | 0, _, consec, oracle =>
    -- unreachable: every iteration of the Python loop breaks or raises
    ⟨none, oracle, [], [], consec⟩
  | _remaining + 1, _retryIdx, consec, [] => ⟨none, [], [], [tok], consec⟩
  | remaining + 1, retryIdx, consec, resp :: rest =>
    match resp with
    | .ok threads nextTok => ⟨some (.ok (threads, nextTok)), rest, [], [tok], 0⟩
    | .err e =>
      if isRateLimitError e then
        if retryIdx < maxRetries - 1 then
          let w := (retryIdx + 2) * 20
          let out := retryFetch tok remaining (retryIdx + 1) (consec + 1) rest
          ⟨out.outcome, out.rest, w :: out.waits, tok :: out.calls, out.consec⟩
        else
          ⟨some (.error e), rest, [], [tok], consec + 1⟩
      else
        ⟨some (.error e), rest, [], [tok], consec⟩

/-- Trace of one `search_all_messages` run: the returned list or surfaced
error (`none` while the oracle is exhausted), the backoff waits, the page
tokens of all `search_messages` calls, and the final
`consecutive_failures`. -/
structure RunOut (M : Type) where
  result : Option (Except String (List M))
  waits : List Nat
  calls : List (Option String)
  consec : Nat

/-- The `while True` page loop of `search_all_messages`.  After a fetched
page: an empty `threads` list breaks; the page is appended; a truthy
`max_total` that has been reached truncates and breaks; a falsy
`nextPageToken` breaks; otherwise the loop continues with the new token.
`fuel` bounds the number of iterations (each iteration consumes at least one
oracle entry, so `oracle.length + 1` is always enough). -/
def pageLoop {M : Type} (maxTotal : Option Nat) :
    Nat → List (PageResp M) → List M → Option String → Nat → RunOut M
  | 0, _, _, _, consec => ⟨none, [], [], consec⟩
  | fuel + 1, oracle, acc, tok, consec =>
    let r := retryFetch tok maxRetries 0 consec oracle
    match r.outcome with
    | none => ⟨none, r.waits, r.calls, r.consec⟩
    | some (.error e) => ⟨some (.error e), r.waits, r.calls, r.consec⟩
    | some (.ok (threads, nextTok)) =>
      if threads.isEmpty then ⟨some (.ok acc), r.waits, r.calls, r.consec⟩
      else
        let acc' := acc ++ threads
        let capHit := match maxTotal with
          | some m => decide (m ≠ 0) && decide (m ≤ acc'.length)
          | none => false
        if capHit then
          ⟨some (.ok (acc'.take ((maxTotal.getD 0)))), r.waits, r.calls, r.consec⟩
        else if tokFalsy nextTok then
          ⟨some (.ok acc'), r.waits, r.calls, r.consec⟩
        else
          let out := pageLoop maxTotal fuel r.rest acc' nextTok r.consec
          ⟨out.result, r.waits ++ out.waits, r.calls ++ out.calls, out.consec⟩

/-- `GogCLI.search_all_messages` on an oracle source: starts with no page
token, an empty accumulator and `consecutive_failures = 0`. -/
def searchAllMessages {M : Type} (maxTotal : Option Nat)
    (oracle : List (PageResp M)) : RunOut M :=
  pageLoop maxTotal (oracle.length + 1) oracle [] none 0

/-! ## Topic modeler (`topic_modeler.py`)

Only the control flow around the numeric model is embedded: the sklearn
`CountVectorizer`/`LatentDirichletAllocation` kernel is floating-point and
is abstracted as the type parameters `V`/`L` and explicit kernel-function
arguments.  Every readiness guard and error message is translated from the
source; in the source each guard raises before any state is assigned, which
the embedding reflects by returning an error without a successor state. -/

/-- Mutable state of a `TopicModeler` (`max_df`, a float hyperparameter the
modelled operations never branch on, is omitted). -/
structure TopicModelerState (V L : Type) where
  n_topics : Nat
  min_df : Nat
  vectorizer : V
  lda_model : L
  topic_labels : List (Nat × String)
  is_trained : Bool

/-- The serialized artifact written by `save_model` (`model_data`). -/
structure ModelArtifact (V L : Type) where
  vectorizer : V
  lda_model : L
  topic_labels : List (Nat × String)
  n_topics : Nat
  min_df : Nat

/-- `TopicModeler.train`: fails fast on an empty document list, otherwise
runs the numeric kernel `fit` (vectorizer fit-transform, LDA fit, topic
top-words and auto-labelling) and marks the state trained. -/
def tmTrain {V L : Type}
    (fit : List (String × String × String) → V × L × List (Nat × List String) × List (Nat × String))
    (st : TopicModelerState V L) (newsletter_data : List (String × String × String)) :
    Except String (TopicModelerState V L × List (Nat × List String)) :=
  if newsletter_data.isEmpty then
    .error "No newsletter data provided for training"
  else
    let (v, l, topicWords, labels) := fit newsletter_data
    .ok ({ st with
            vectorizer := v
            lda_model := l
            is_trained := true
            topic_labels := labels }, topicWords)

/-- `TopicModeler.predict_topic`: fails fast when untrained, otherwise runs
the numeric kernel (vectorize + LDA transform + argmax) and resolves the
topic label. -/
def tmPredictTopic {V L C : Type} (infer : V → L → String × String × String → Nat × C)
    (st : TopicModelerState V L) (doc : String × String × String) :
    Except String (Nat × String × C) :=
  if !st.is_trained then
    .error "Model must be trained before prediction"
  else
    let (topicId, confidence) := infer st.vectorizer st.lda_model doc
    let label := ((st.topic_labels.lookup topicId).getD ("Topic_" ++ toString topicId))
    .ok (topicId, label, confidence)

/-- `TopicModeler.get_topic_distribution`: the same readiness guard, then
the numeric kernel mapped through the topic labels. -/
def tmGetTopicDistribution {V L D : Type} (distKernel : V → L → String × String × String → D)
    (st : TopicModelerState V L) (doc : String × String × String) :
    Except String D :=
  if !st.is_trained then
    .error "Model must be trained before prediction"
  else
    .ok (distKernel st.vectorizer st.lda_model doc)

/-- `TopicModeler.save_model` over a filesystem modelled as a map from path
strings to artifacts: fails fast when untrained, otherwise writes the
artifact. -/
def tmSaveModel {V L : Type} (st : TopicModelerState V L)
    (fs : String → Option (ModelArtifact V L)) (filepath : String) :
    Except String (String → Option (ModelArtifact V L)) :=
  if !st.is_trained then
    .error "Cannot save untrained model"
  else
    .ok (fun p => if p == filepath then
          some ⟨st.vectorizer, st.lda_model, st.topic_labels, st.n_topics, st.min_df⟩
        else fs p)

/-- `TopicModeler.load_model`: a missing artifact raises a not-found error,
otherwise a fresh instance is built from the artifact and marked trained. -/
def tmLoadModel {V L : Type} (fs : String → Option (ModelArtifact V L))
    (filepath : String) : Except String (TopicModelerState V L) :=
  match fs filepath with
  | none => .error ("Model file not found: " ++ filepath)
  | some a =>
    .ok { n_topics := a.n_topics, min_df := a.min_df, vectorizer := a.vectorizer,
          lda_model := a.lda_model, topic_labels := a.topic_labels, is_trained := true }

/-! ## Spec-side definitions

Definitions following the wording of the specification / claims, used to
state refinement theorems against the source-side definitions above. -/

/-- Spec-side reading of the category score: domain match in sender weighs
5, keyword match in subject weighs 2, keyword match in sender weighs 1,
accumulated per category. -/
def specCatScore (c : Category) (senderLower subjectLower : String) : Nat :=
  5 * c.domains.countP (strContains senderLower)
    + 2 * c.keywords.countP (fun k => strContains subjectLower (strLower k))
    + c.keywords.countP (fun k => strContains senderLower (strLower k))

/-- Maximum of a list of naturals (0 for the empty list). -/
def listMax (l : List Nat) : Nat := l.foldr max 0

/-- A source that serves the given pages in order, never failing. -/
def pagesOracle {M : Type} (pages : List (List M × Option String)) :
    List (PageResp M) :=
  pages.map (fun pt => .ok pt.1 pt.2)

/-- The concatenation `p1 ++ ... ++ pk` of the served pages. -/
def pagesConcat {M : Type} (pages : List (List M × Option String)) : List M :=
  pages.foldr (fun pt acc => pt.1 ++ acc) []

/-- How many pages a capped scan fetches: pages are consumed until their
cumulative size reaches the cap (all of them if it never does). -/
def pagesNeeded {M : Type} (m : Nat) : List (List M × Option String) → Nat
  | [] => 0
  | pt :: ps => if m ≤ pt.1.length then 1 else 1 + pagesNeeded (m - pt.1.length) ps

/-- The page-stream shape assumed by the pagination claim: every page
before the last is nonempty and carries a truthy next-page token, and the
last page's token is falsy. -/
def GoodPages {M : Type} : List (List M × Option String) → Prop
  | [] => True
  | [pt] => tokFalsy pt.2 = true
  | pt :: rest => pt.1 ≠ [] ∧ tokFalsy pt.2 = false ∧ GoodPages rest

/-- The backoff waits `(attempt + 2) * 20` performed by `n` consecutive
rate-limited attempts starting at retry index `r`: for `r = 0` these are
`40, 60, 80, ...` (never `20`). -/
def backoffWaits (r : Nat) : Nat → List Nat
  | 0 => []
  | n + 1 => (r + 2) * 20 :: backoffWaits (r + 1) n

/-! ## Helper lemmas: corpus store -/

lemma find?_of_filter_eq_singleton {α : Type} (p : α → Bool) :
    ∀ (l : List α) (r : α), l.filter p = [r] → l.find? p = some r := by
  intro l r h
  induction l with
  | nil => simp at h
  | cons x t ih =>
    by_cases hx : p x
    · rw [List.filter_cons_of_pos hx] at h
      injection h with h1 h2
      rw [h1] at hx ⊢
      exact List.find?_cons_of_pos t hx
    · rw [List.filter_cons_of_neg hx] at h
      rw [List.find?_cons_of_neg t hx]
      exact ih h

lemma find?_of_filter_eq_nil {α : Type} (p : α → Bool) :
    ∀ (l : List α), l.filter p = [] → l.find? p = none := by
  intro l h
  induction l with
  | nil => rfl
  | cons x t ih =>
    by_cases hx : p x
    · rw [List.filter_cons_of_pos hx] at h
      exact absurd h (List.cons_ne_nil _ _)
    · rw [List.filter_cons_of_neg hx] at h
      rw [List.find?_cons_of_neg t hx]
      exact ih h

lemma applyUpdate_sender_email (a : UpsertArgs) (r : NewsletterRow) :
    (applyUpdate a r).sender_email = r.sender_email := rfl

lemma filter_updateRows (e : String) (a : UpsertArgs) :
    ∀ l : List NewsletterRow,
      (updateRows e a l).filter (fun r => r.sender_email == e)
        = (l.filter (fun r => r.sender_email == e)).map (applyUpdate a) := by
  intro l
  induction l with
  | nil => rfl
  | cons x t ih =>
    show ((if x.sender_email == e then applyUpdate a x else x) ::
        updateRows e a t).filter _ = _
    by_cases hx : (x.sender_email == e) = true
    · have hx2 : ((applyUpdate a x).sender_email == e) = true := by
        rw [applyUpdate_sender_email]; exact hx
      rw [if_pos hx]
      simp only [List.filter_cons, hx2, hx, if_true, List.map_cons]
      rw [ih]
    · rw [if_neg hx]
      simp [List.filter_cons, hx, ih]

lemma upsert_existing (db : NewslettersTable) (e : String) (a : UpsertArgs)
    (r : NewsletterRow) (h : rowsFor db e = [r]) :
    upsertNewsletter db e a = ({ db with rows := updateRows e a db.rows }, r.id) := by
  unfold upsertNewsletter
  rw [find?_of_filter_eq_singleton _ _ _ h]

lemma rowsFor_upsert_existing (db : NewslettersTable) (e : String) (a : UpsertArgs)
    (r : NewsletterRow) (h : rowsFor db e = [r]) :
    rowsFor (upsertNewsletter db e a).1 e = [applyUpdate a r] := by
  rw [upsert_existing db e a r h]
  show (updateRows e a db.rows).filter _ = _
  rw [filter_updateRows]
  show (rowsFor db e).map _ = _
  rw [h, List.map_singleton]

lemma upsert_absent (db : NewslettersTable) (e : String) (a : UpsertArgs)
    (h : rowsFor db e = []) :
    upsertNewsletter db e a
      = (⟨db.rows ++ [insertRow a e db.nextId], db.nextId + 1⟩, db.nextId) := by
  unfold upsertNewsletter
  rw [find?_of_filter_eq_nil _ _ h]

lemma insertRow_sender_email (a : UpsertArgs) (e : String) (i : Nat) :
    (insertRow a e i).sender_email = e := rfl

lemma rowsFor_upsert_absent (db : NewslettersTable) (e : String) (a : UpsertArgs)
    (h : rowsFor db e = []) :
    rowsFor (upsertNewsletter db e a).1 e = [insertRow a e db.nextId] := by
  rw [upsert_absent db e a h]
  show (db.rows ++ [insertRow a e db.nextId]).filter _ = _
  rw [List.filter_append]
  have h2 : (insertRow a e db.nextId).sender_email == e := by
    rw [insertRow_sender_email]; simp
  simp only [List.filter_cons, h2, if_pos, List.filter_nil]
  rw [show db.rows.filter (fun r => r.sender_email == e) = rowsFor db e from rfl, h]
  rfl

/-- Invariant of a run of `upsert_newsletter` calls over an existing unique
row: the row stays unique, keeps its id, gains one `total_count` per call,
keeps `first_seen`, takes the last truthy `last_seen`, accumulates the
`auto_categorized` flag disjunctively, and every call returns the row's id. -/
lemma applyUpserts_existing (e : String) :
    ∀ (calls : List UpsertArgs) (db : NewslettersTable) (r : NewsletterRow),
      rowsFor db e = [r] →
      ∃ r', rowsFor (applyUpserts e db calls).1 e = [r']
        ∧ r'.id = r.id
        ∧ r'.total_count = r.total_count + calls.length
        ∧ r'.first_seen = r.first_seen
        ∧ r'.last_seen = calls.foldl (fun acc b => ovw b.last_seen acc) r.last_seen
        ∧ r'.auto_categorized = (r.auto_categorized || calls.any (fun b => b.auto_categorized))
        ∧ (applyUpserts e db calls).2 = List.replicate calls.length r.id := by
  intro calls
  induction calls with
  | nil =>
    intro db r h
    exact ⟨r, h, rfl, rfl, rfl, rfl, by simp, rfl⟩
  | cons a rest ih =>
    intro db r h
    have step := rowsFor_upsert_existing db e a r h
    have hid := upsert_existing db e a r h
    obtain ⟨r', h1, h2, h3, h4, h5, h6, h7⟩ := ih (upsertNewsletter db e a).1 (applyUpdate a r) step
    refine ⟨r', ?_, ?_, ?_, ?_, ?_, ?_, ?_⟩
    · show rowsFor (applyUpserts e db (a :: rest)).1 e = [r']
      simp only [applyUpserts]
      exact h1
    · rw [h2]; rfl
    · rw [h3]
      show (applyUpdate a r).total_count + rest.length = _
      show r.total_count + 1 + rest.length = _
      simp [List.length_cons]
      omega
    · rw [h4]; rfl
    · rw [h5]; rfl
    · rw [h6]
      show ((applyUpdate a r).auto_categorized || rest.any _) = _
      show ((r.auto_categorized || a.auto_categorized) || rest.any _) = _
      simp [List.any_cons, Bool.or_assoc]
    · simp only [applyUpserts]
      rw [h7, hid]
      show r.id :: List.replicate rest.length ((applyUpdate a r).id) = _
      show r.id :: List.replicate rest.length r.id = _
      rw [List.length_cons, List.replicate_succ]

/-! ## Claim theorems: corpus store -/

/-- **C1.** For every `sender_email` and every sequence of `N ≥ 1` calls to
`upsert_newsletter` with that email (any attribute values), starting from a
table with no row for that email, the `newsletters` table afterwards
contains exactly one row for that email, its `total_count` equals `N`, and
every call returned that row's identifier. -/
theorem upsert_newsletter_unique_row_count (db : NewslettersTable) (e : String)
    (a : UpsertArgs) (calls : List UpsertArgs) (hnone : rowsFor db e = []) :
    ∃ r, rowsFor (applyUpserts e db (a :: calls)).1 e = [r]
      ∧ r.total_count = (a :: calls).length
      ∧ (applyUpserts e db (a :: calls)).2
          = List.replicate (a :: calls).length r.id := by
  have step := rowsFor_upsert_absent db e a hnone
  have hins := upsert_absent db e a hnone
  obtain ⟨r', h1, h2, h3, _, _, _, h7⟩ :=
    applyUpserts_existing e calls (upsertNewsletter db e a).1
      (insertRow a e db.nextId) step
  refine ⟨r', ?_, ?_, ?_⟩
  · simp only [applyUpserts]
    exact h1
  · rw [h3]
    show (insertRow a e db.nextId).total_count + calls.length = _
    show 1 + calls.length = _
    simp [List.length_cons]
    omega
  · simp only [applyUpserts]
    rw [h7, hins]
    show db.nextId :: List.replicate calls.length ((insertRow a e db.nextId).id) = _
    show db.nextId :: List.replicate calls.length db.nextId = _
    rw [List.length_cons, List.replicate_succ,
      show r'.id = db.nextId from h2]

/-- **C1 witness**: two upserts for `n@x.com` into an empty table leave one
row with `total_count = 2`, both calls returning its id. -/
theorem upsert_newsletter_unique_row_count_witness :
    ∃ r, rowsFor (applyUpserts "n@x.com" ⟨[], 1⟩
        [{ now := "t1" }, { now := "t2" }]).1 "n@x.com" = [r]
      ∧ r.total_count = ([{ now := "t1" }, { now := "t2" }] : List UpsertArgs).length
      ∧ (applyUpserts "n@x.com" ⟨[], 1⟩ [{ now := "t1" }, { now := "t2" }]).2
          = List.replicate ([{ now := "t1" }, { now := "t2" }] : List UpsertArgs).length r.id :=
  upsert_newsletter_unique_row_count ⟨[], 1⟩ "n@x.com" { now := "t1" }
    [{ now := "t2" }] (by rfl)

/-- **C2 (amended).** After `N ≥ 1` upserts for a fresh sender, the stored
`first_seen` is fixed by the *first* call (its supplied value, or that
call's `now` when falsy) and is never updated afterwards, and the stored
`last_seen` equals the *most recently* supplied truthy `last_seen` (starting
from the first call's value-or-`now`), overwritten rather than maxed — so it
can decrease and `first_seen` need not be the minimum supplied value. -/
theorem upsert_newsletter_seen_fields (db : NewslettersTable) (e : String)
    (a : UpsertArgs) (calls : List UpsertArgs) (hnone : rowsFor db e = []) :
    ∃ r, rowsFor (applyUpserts e db (a :: calls)).1 e = [r]
      ∧ r.first_seen = pyOr a.first_seen a.now
      ∧ r.last_seen
          = calls.foldl (fun acc b => ovw b.last_seen acc) (pyOr a.last_seen a.now) := by
  have step := rowsFor_upsert_absent db e a hnone
  obtain ⟨r', h1, _, _, h4, h5, _, _⟩ :=
    applyUpserts_existing e calls (upsertNewsletter db e a).1
      (insertRow a e db.nextId) step
  refine ⟨r', ?_, ?_, ?_⟩
  · simp only [applyUpserts]
    exact h1
  · rw [h4]; rfl
  · rw [h5]; rfl

/-- **C2 witness**: for two concrete upserts the stored fields follow the
amended rule. -/
theorem upsert_newsletter_seen_fields_witness :
    ∃ r, rowsFor (applyUpserts "n@x.com" ⟨[], 1⟩
        [{ now := "t1", first_seen := some "2024-02-01", last_seen := some "2024-02-01" },
         { now := "t2", first_seen := some "2023-01-01", last_seen := some "2024-01-01" }]).1
        "n@x.com" = [r]
      ∧ r.first_seen = pyOr (some "2024-02-01") "t1"
      ∧ r.last_seen =
          [({ now := "t2", first_seen := some "2023-01-01", last_seen := some "2024-01-01" } : UpsertArgs)].foldl
          (fun acc b => ovw b.last_seen acc) (pyOr (some "2024-02-01") "t1") :=
  upsert_newsletter_seen_fields ⟨[], 1⟩ "n@x.com"
    { now := "t1", first_seen := some "2024-02-01", last_seen := some "2024-02-01" }
    [{ now := "t2", first_seen := some "2023-01-01", last_seen := some "2024-01-01" }]
    (by rfl)

/-- **C2 counterexample.** Upserting `last_seen = "2024-02-01"` then
`last_seen = "2024-01-01"` (with `first_seen` `"2024-02-01"` then
`"2023-01-01"`) stores `last_seen = "2024-01-01"` — strictly below the
maximum `"2024-02-01"` of the supplied values, so `last_seen` decreased —
and stores `first_seen = "2024-02-01"`, not the minimum `"2023-01-01"`. -/
theorem upsert_newsletter_seen_fields_counterexample :
    ((applyUpserts "n@x.com" ⟨[], 1⟩
        [{ now := "t1", first_seen := some "2024-02-01", last_seen := some "2024-02-01" },
         { now := "t2", first_seen := some "2023-01-01", last_seen := some "2024-01-01" }]).1.rows.map
        (fun r => (r.first_seen, r.last_seen)) = [("2024-02-01", "2024-01-01")])
      ∧ ("2024-01-01" : String) ≠ "2024-02-01"
      ∧ "2024-01-01".toList < "2024-02-01".toList
      ∧ ("2024-02-01" : String) ≠ "2023-01-01" := by
  refine ⟨rfl, by decide, by decide, by decide⟩

/-- **C10.** The stored `auto_categorized` flag is monotone: once the (by
the `UNIQUE` constraint, single) row of a sender has it `true`, any further
`upsert_newsletter` call for that sender — in particular one passing
`auto_categorized=False` — leaves it `true`, since the update branch only
touches the column when the argument is truthy. -/
theorem upsert_newsletter_auto_categorized_monotone (db : NewslettersTable)
    (e : String) (a : UpsertArgs) (r : NewsletterRow)
    (hrow : rowsFor db e = [r]) (hauto : r.auto_categorized = true) :
    ∃ r', rowsFor (upsertNewsletter db e a).1 e = [r']
      ∧ r'.auto_categorized = true := by
  refine ⟨applyUpdate a r, rowsFor_upsert_existing db e a r hrow, ?_⟩
  show (r.auto_categorized || a.auto_categorized) = true
  rw [hauto, Bool.true_or]

/-- **C10 witness**: a sender whose row has the flag set keeps it after an
upsert passing `auto_categorized := false`. -/
theorem upsert_newsletter_auto_categorized_monotone_witness :
    ∃ r', rowsFor (upsertNewsletter
        ⟨[{ id := 1, sender_email := "n@x.com", sender_name := none, category := none,
            subcategory := none, platform := none, first_seen := "t0", last_seen := "t0",
            total_count := 1, unread_count := 0, read_count := 0, auto_categorized := true,
            created_at := "t0", updated_at := "t0" }], 2⟩
        "n@x.com" { now := "t1" }).1 "n@x.com" = [r']
      ∧ r'.auto_categorized = true :=
  upsert_newsletter_auto_categorized_monotone _ "n@x.com" { now := "t1" }
    { id := 1, sender_email := "n@x.com", sender_name := none, category := none,
      subcategory := none, platform := none, first_seen := "t0", last_seen := "t0",
      total_count := 1, unread_count := 0, read_count := 0, auto_categorized := true,
      created_at := "t0", updated_at := "t0" }
    (by rfl) (by rfl)

lemma filter_addMessage_self (tbl : List MessageRow) (mid : String)
    (a : AddMessageArgs) :
    (addMessage tbl mid a).filter (fun r => r.id == mid) = [messageRowOf mid a] := by
  unfold addMessage
  rw [List.filter_append]
  have h1 : (tbl.filter (fun r => !(r.id == mid))).filter (fun r => r.id == mid) = [] := by
    induction tbl with
    | nil => rfl
    | cons x t ih =>
      by_cases hx : (x.id == mid) = true
      · simp [List.filter_cons, hx, ih]
      · simp [List.filter_cons, hx, ih]
  have h2 : ((messageRowOf mid a).id == mid) = true := by
    show (mid == mid) = true
    simp
  rw [h1]
  simp [List.filter_cons, h2]

/-- **C8.** For every message id, after any nonempty sequence of
`add_message` calls with that id (over any starting table), the `messages`
table holds exactly one row keyed by that id, and that row is exactly the
one written by the most recent call (`INSERT OR REPLACE` fully replaces the
prior row); re-ingesting an id never duplicates it. -/
theorem add_message_last_write_wins (tbl : List MessageRow) (mid : String)
    (calls : List AddMessageArgs) (a : AddMessageArgs) :
    (applyAddMessages mid tbl (calls ++ [a])).filter (fun r => r.id == mid)
      = [messageRowOf mid a] := by
  induction calls generalizing tbl with
  | nil => exact filter_addMessage_self tbl mid a
  | cons c rest ih =>
    show (applyAddMessages mid (addMessage tbl mid c) (rest ++ [a])).filter _ = _
    exact ih (addMessage tbl mid c)

/-! ## Claim theorems: topic modeler -/

/-- **C9.** The topic modeler fails fast with its descriptive error in
exactly the claimed not-ready cases — training on an empty document list,
predicting or reading the topic distribution before training, saving before
training, and loading from a missing path — for every state, kernel and
filesystem; each error is returned before any state is produced (in the
source, each `raise` precedes every assignment). -/
theorem topic_modeler_fails_fast {V L C D : Type}
    (fit : List (String × String × String) → V × L × List (Nat × List String) × List (Nat × String))
    (infer : V → L → String × String × String → Nat × C)
    (distKernel : V → L → String × String × String → D)
    (st : TopicModelerState V L) (doc : String × String × String)
    (data : List (String × String × String))
    (fs : String → Option (ModelArtifact V L)) (path : String) :
    (data = [] → tmTrain fit st data = .error "No newsletter data provided for training")
    ∧ (st.is_trained = false →
        tmPredictTopic infer st doc = .error "Model must be trained before prediction")
    ∧ (st.is_trained = false →
        tmGetTopicDistribution distKernel st doc
          = .error "Model must be trained before prediction")
    ∧ (st.is_trained = false →
        tmSaveModel st fs path = .error "Cannot save untrained model")
    ∧ (fs path = none →
        tmLoadModel fs path = .error ("Model file not found: " ++ path)) := by
  refine ⟨?_, ?_, ?_, ?_, ?_⟩
  · intro h; rw [h]; rfl
  · intro h; unfold tmPredictTopic; rw [h]; rfl
  · intro h; unfold tmGetTopicDistribution; rw [h]; rfl
  · intro h; unfold tmSaveModel; rw [h]; rfl
  · intro h; unfold tmLoadModel; rw [h]

/-- **C9 witness**: the five guard behaviours at concrete inputs (trivial
kernels, an untrained state, an empty filesystem). -/
theorem topic_modeler_fails_fast_witness :
    (tmTrain (fun _ => ((), (), ([] : List (Nat × List String)), ([] : List (Nat × String))))
        ⟨10, 2, (), (), [], false⟩ [] = .error "No newsletter data provided for training")
    ∧ (tmPredictTopic (fun _ _ _ => (0, ())) ⟨10, 2, (), (), [], false⟩ ("a", "b", "c")
        = .error "Model must be trained before prediction")
    ∧ (tmGetTopicDistribution (fun _ _ _ => ()) ⟨10, 2, (), (), [], false⟩ ("a", "b", "c")
        = .error "Model must be trained before prediction")
    ∧ (tmSaveModel ⟨10, 2, (), (), [], false⟩ (fun _ => none) "model.pkl"
        = .error "Cannot save untrained model")
    ∧ (tmLoadModel (fun _ => (none : Option (ModelArtifact Unit Unit))) "model.pkl"
        = .error ("Model file not found: " ++ "model.pkl")) := by
  have h := topic_modeler_fails_fast
    (fun _ => ((), (), ([] : List (Nat × List String)), ([] : List (Nat × String))))
    (fun _ _ _ => ((0 : Nat), ())) (fun _ _ _ => ())
    (⟨10, 2, (), (), [], false⟩ : TopicModelerState Unit Unit) ("a", "b", "c") []
    (fun _ => none) "model.pkl"
  exact ⟨h.1 rfl, h.2.1 rfl, h.2.2.1 rfl, h.2.2.2.1 rfl, h.2.2.2.2 rfl⟩

/-! ## Helper lemmas: detection engine -/

lemma infixOf_of_isPrefixOf {l₁ l₂ : List Char} (h : l₁.isPrefixOf l₂ = true) :
    infixOf l₁ l₂ = true := by
  cases l₂ with
  | nil =>
    cases l₁ with
    | nil => rfl
    | cons c t => simp [List.isPrefixOf] at h
  | cons c rest =>
    unfold infixOf
    rw [h, Bool.true_or]

lemma strContains_append_self (p t : String) : strContains (p ++ t) p = true := by
  unfold strContains
  have hd : (p ++ t).toList = p.toList ++ t.toList := String.data_append p t
  rw [hd]
  exact infixOf_of_isPrefixOf (List.isPrefixOf_iff_prefix.mpr (List.prefix_append _ _))

/-! ## Claim theorems: detection engine -/

/-- **C7.** Whenever the extracted sender domain contains some configured or
built-in platform domain, `is_newsletter` records the reason
`from_platform:<d>` for the first such domain `d` in configured-then-built-in
order (`platformMatch` is `find?` over `cfg.platforms ++
NEWSLETTER_PLATFORMS`), returns `d` as the platform component, and returns
verdict `True` on that reason alone; in particular sender
`news@mail.substack.com` yields platform `substack.com`. -/
theorem is_newsletter_platform_match :
    (∀ (cfg : DetectorConfig) (m : EmailMessage) (d : String),
      platformMatch cfg m = some d →
      (isNewsletter cfg m).2.1 = some d
        ∧ ("from_platform:" ++ d) ∈ (isNewsletter cfg m).2.2
        ∧ (isNewsletter cfg m).1 = true)
    ∧ (isNewsletter ⟨[], []⟩ { fromField := some "news@mail.substack.com" }).2.1
        = some "substack.com" := by
  constructor
  · intro cfg m d h
    have hmem : ("from_platform:" ++ d) ∈ detectReasons cfg m := by
      unfold detectReasons platformReasons
      rw [h]
      simp
    refine ⟨?_, ?_, ?_⟩
    · show platformMatch cfg m = some d
      exact h
    · show ("from_platform:" ++ d) ∈ detectReasons cfg m
      exact hmem
    · show (decide _ || _ || (detectReasons cfg m).any _) = true
      have hany : (detectReasons cfg m).any (fun r => strContains r "from_platform:") = true :=
        List.any_eq_true.mpr ⟨_, hmem, strContains_append_self "from_platform:" d⟩
      rw [hany, Bool.or_true]
  · decide

/-- **C7 witness**: a thread message from `news@mail.substack.com` under the
default configuration satisfies the platform-match hypothesis with
`substack.com` and hence all three conclusions. -/
theorem is_newsletter_platform_match_witness :
    (isNewsletter defaultConfig { fromField := some "news@mail.substack.com" }).2.1
        = some "substack.com"
      ∧ ("from_platform:" ++ "substack.com")
          ∈ (isNewsletter defaultConfig { fromField := some "news@mail.substack.com" }).2.2
      ∧ (isNewsletter defaultConfig { fromField := some "news@mail.substack.com" }).1 = true :=
  is_newsletter_platform_match.1 defaultConfig
    { fromField := some "news@mail.substack.com" } "substack.com" (by decide)

/-- **C3 (amended).** `is_newsletter` returns verdict `True` iff the
accumulated reason list has length ≥ 2, or contains
`has_list_unsubscribe_header`, or contains a reason *containing*
`from_platform:` as a substring (every reason the platform loop itself adds
starts with it, but a configured subject pattern embedding that text also
counts, so "starting with" is too strong).  Moreover a full-message-shaped
input carrying a List-Unsubscribe header yields `True` with
`has_list_unsubscribe_header` among the reasons regardless of subject
content, and the `colleague@company.com` / `"Meeting tomorrow"` example
under the default configuration accumulates no reason and yields `False`. -/
theorem is_newsletter_verdict_rule :
    (∀ (cfg : DetectorConfig) (m : EmailMessage),
      (isNewsletter cfg m).1 = true ↔
        (2 ≤ (isNewsletter cfg m).2.2.length
          ∨ "has_list_unsubscribe_header" ∈ (isNewsletter cfg m).2.2
          ∨ ∃ r ∈ (isNewsletter cfg m).2.2, strContains r "from_platform:" = true))
    ∧ (∀ (cfg : DetectorConfig) (m : EmailMessage),
        m.payload.isSome = true →
        (headerLookup (getHeadersList m) "list-unsubscribe").isSome = true →
        (isNewsletter cfg m).1 = true
          ∧ "has_list_unsubscribe_header" ∈ (isNewsletter cfg m).2.2)
    ∧ isNewsletter defaultConfig
        { payload := some (some [("From", "colleague@company.com")]),
          subject := some "Meeting tomorrow", snippet := some "See you at the meeting" }
        = (false, none, []) := by
  refine ⟨?_, ?_, by decide⟩
  · intro cfg m
    rw [show (isNewsletter cfg m).2.2 = detectReasons cfg m from rfl]
    show (decide (2 ≤ (detectReasons cfg m).length)
        || (detectReasons cfg m).contains "has_list_unsubscribe_header"
        || (detectReasons cfg m).any (fun r => strContains r "from_platform:")) = true ↔ _
    simp [List.any_eq_true, or_assoc]
  · intro cfg m hp hl
    have hthread : isThreadShape m = false := by
      unfold isThreadShape
      cases hpp : m.payload with
      | none => rw [hpp] at hp; simp at hp
      | some v => simp [Option.isNone]
    have hunsub : unsubReasons m = ["has_list_unsubscribe_header"] := by
      unfold unsubReasons
      rw [hthread, hl]
      rfl
    have hmem : "has_list_unsubscribe_header" ∈ detectReasons cfg m := by
      unfold detectReasons
      rw [hunsub]
      simp
    constructor
    · show (decide _ || (detectReasons cfg m).contains "has_list_unsubscribe_header"
          || (detectReasons cfg m).any _) = true
      have hc : (detectReasons cfg m).contains "has_list_unsubscribe_header" = true := by
        simpa using hmem
      rw [hc, Bool.or_true, Bool.true_or]
    · exact hmem

/-- **C3 witness**: the universally quantified parts applied at concrete
inputs — the iff at the default configuration on the substack thread
message, and the List-Unsubscribe part on the test-suite message. -/
theorem is_newsletter_verdict_rule_witness :
    ((isNewsletter defaultConfig { fromField := some "news@mail.substack.com" }).1 = true ↔
      (2 ≤ (isNewsletter defaultConfig { fromField := some "news@mail.substack.com" }).2.2.length
        ∨ "has_list_unsubscribe_header"
            ∈ (isNewsletter defaultConfig { fromField := some "news@mail.substack.com" }).2.2
        ∨ ∃ r ∈ (isNewsletter defaultConfig { fromField := some "news@mail.substack.com" }).2.2,
            strContains r "from_platform:" = true))
    ∧ ((isNewsletter defaultConfig
          { payload := some (some [("From", "newsletter@example.com"),
              ("List-Unsubscribe", "<mailto:unsub@example.com>")]),
            subject := some "Weekly Update", snippet := some "This is a newsletter" }).1 = true
        ∧ "has_list_unsubscribe_header" ∈ (isNewsletter defaultConfig
            { payload := some (some [("From", "newsletter@example.com"),
                ("List-Unsubscribe", "<mailto:unsub@example.com>")]),
              subject := some "Weekly Update", snippet := some "This is a newsletter" }).2.2) :=
  ⟨is_newsletter_verdict_rule.1 defaultConfig { fromField := some "news@mail.substack.com" },
   is_newsletter_verdict_rule.2.1 defaultConfig
     { payload := some (some [("From", "newsletter@example.com"),
         ("List-Unsubscribe", "<mailto:unsub@example.com>")]),
       subject := some "Weekly Update", snippet := some "This is a newsletter" }
     (by decide) (by decide)⟩

/-- **C3 counterexample.** With configured subject pattern `from_platform:x`
and a thread message whose subject matches it, the code's verdict is `True`
on a single reason (`subject_contains:from_platform:x`), yet the reason list
has length 1, holds no `has_list_unsubscribe_header`, and holds no reason
*starting with* `from_platform:` — refuting the claimed iff as stated. -/
theorem is_newsletter_verdict_rule_counterexample :
    (isNewsletter ⟨["from_platform:x"], []⟩
        { fromField := some "colleague@company.com",
          subject := some "from_platform:x" }).1 = true
    ∧ ¬(2 ≤ (isNewsletter ⟨["from_platform:x"], []⟩
          { fromField := some "colleague@company.com",
            subject := some "from_platform:x" }).2.2.length
        ∨ "has_list_unsubscribe_header" ∈ (isNewsletter ⟨["from_platform:x"], []⟩
            { fromField := some "colleague@company.com",
              subject := some "from_platform:x" }).2.2
        ∨ ∃ r ∈ (isNewsletter ⟨["from_platform:x"], []⟩
            { fromField := some "colleague@company.com",
              subject := some "from_platform:x" }).2.2,
            "from_platform:".toList.isPrefixOf r.toList = true) := by
  constructor
  · decide
  · decide

/-! ## Helper lemmas: category classifier -/

lemma foldl_domain_score (p : String → Bool) :
    ∀ (l : List String) (n : Nat),
      l.foldl (fun acc d => if p d then acc + 5 else acc) n = n + 5 * l.countP p := by
  intro l
  induction l with
  | nil => intro n; simp
  | cons x t ih =>
    intro n
    by_cases hx : p x
    · simp only [List.foldl_cons, if_pos hx, ih, List.countP_cons_of_pos _ _ hx]
      omega
    · simp only [List.foldl_cons, if_neg hx, ih, List.countP_cons_of_neg _ _ hx]

lemma foldl_keyword_score (p q : String → Bool) :
    ∀ (l : List String) (n : Nat),
      l.foldl (fun acc k =>
          let acc := if p k then acc + 2 else acc
          if q k then acc + 1 else acc) n
        = n + 2 * l.countP p + l.countP q := by
  intro l
  induction l with
  | nil => intro n; simp
  | cons x t ih =>
    intro n
    by_cases hp : p x <;> by_cases hq : q x <;>
      simp [hp, hq, ih, List.countP_cons] <;> omega

lemma catScore_eq_spec (c : Category) (sL uL : String) :
    catScore c sL uL = specCatScore c sL uL := by
  unfold catScore specCatScore
  rw [foldl_domain_score, foldl_keyword_score]
  omega

lemma find?_cons_pos' {α : Type} (p : α → Bool) (a : α) (l : List α)
    (h : p a = true) : (a :: l).find? p = some a := by
  rw [List.find?_cons, h]

lemma find?_cons_neg' {α : Type} (p : α → Bool) (a : α) (l : List α)
    (h : p a = false) : (a :: l).find? p = l.find? p := by
  rw [List.find?_cons, h]

lemma listMax_cons (a : Nat) (l : List Nat) : listMax (a :: l) = max a (listMax l) := rfl

lemma le_listMax_head (x : Nat) (l : List Nat) : x ≤ listMax (x :: l) :=
  le_max_left _ _

lemma pickBest_eq_find? :
    ∀ (xs : List (String × Nat)) (x : String × Nat),
      (x :: xs).find? (fun y => y.2 == listMax ((x :: xs).map Prod.snd))
        = some (xs.foldl (fun b y => if b.2 < y.2 then y else b) x) := by
  intro xs
  induction xs with
  | nil =>
    intro x
    have hM : listMax ([x].map Prod.snd) = x.2 := by
      simp [listMax]
    rw [hM]
    exact find?_cons_pos' (fun y => y.2 == x.2) x [] (by simp)
  | cons z zs ih =>
    intro x
    rw [List.foldl_cons]
    by_cases hxy : x.2 < z.2
    · rw [if_pos hxy]
      have hM : listMax ((x :: z :: zs).map Prod.snd)
          = listMax ((z :: zs).map Prod.snd) := by
        show max x.2 (listMax ((z :: zs).map Prod.snd)) = _
        exact max_eq_right (le_of_lt (lt_of_lt_of_le hxy (le_listMax_head _ _)))
      rw [hM]
      have hxb : ((fun (y : String × Nat) =>
          y.2 == listMax ((z :: zs).map Prod.snd)) x) = false := by
        have hlt : x.2 < listMax ((z :: zs).map Prod.snd) :=
          lt_of_lt_of_le hxy (le_listMax_head _ _)
        simpa using Nat.ne_of_lt hlt
      rw [find?_cons_neg' _ x (z :: zs) hxb]
      exact ih z
    · rw [if_neg hxy]
      have hyx : z.2 ≤ x.2 := Nat.le_of_not_lt hxy
      have hM : listMax ((x :: z :: zs).map Prod.snd)
          = listMax ((x :: zs).map Prod.snd) := by
        show max x.2 (max z.2 (listMax (zs.map Prod.snd)))
          = max x.2 (listMax (zs.map Prod.snd))
        rw [← max_assoc, max_eq_left hyx]
      rw [hM]
      have ihx := ih x
      cases hb : (x.2 == listMax ((x :: zs).map Prod.snd)) with
      | true =>
        rw [find?_cons_pos' _ x (z :: zs) hb]
        rw [find?_cons_pos' _ x zs hb] at ihx
        exact ihx
      | false =>
        have hxne : x.2 ≠ listMax ((x :: zs).map Prod.snd) := by simpa using hb
        have hxlt : x.2 < listMax ((x :: zs).map Prod.snd) :=
          lt_of_le_of_ne (le_listMax_head _ _) hxne
        have hzb : ((fun (y : String × Nat) =>
            y.2 == listMax ((x :: zs).map Prod.snd)) z) = false := by
          simpa using Nat.ne_of_lt (lt_of_le_of_lt hyx hxlt)
        rw [find?_cons_neg' _ x (z :: zs) hb, find?_cons_neg' _ z zs hzb]
        rw [find?_cons_neg' _ x zs hb] at ihx
        exact ihx

lemma scoredCategories_cons (c : Category) (cs : List Category) (sL uL : String) :
    scoredCategories (c :: cs) sL uL
      = (if 0 < catScore c sL uL then
          (c.name, catScore c sL uL) :: scoredCategories cs sL uL
        else scoredCategories cs sL uL) := by
  by_cases h : 0 < catScore c sL uL <;> simp [scoredCategories, List.filterMap_cons, h]

lemma listMax_scoredCategories (sL uL : String) :
    ∀ cats : List Category,
      listMax ((scoredCategories cats sL uL).map Prod.snd)
        = listMax (cats.map (fun c => catScore c sL uL)) := by
  intro cats
  induction cats with
  | nil => rfl
  | cons c cs ih =>
    rw [scoredCategories_cons]
    by_cases hs : 0 < catScore c sL uL
    · rw [if_pos hs]
      show max (catScore c sL uL) (listMax ((scoredCategories cs sL uL).map Prod.snd)) = _
      rw [ih]
      rfl
    · rw [if_neg hs, ih]
      show _ = max (catScore c sL uL) _
      rw [Nat.not_lt, Nat.le_zero] at hs
      rw [hs, Nat.zero_max]
      rfl

lemma find?_scoredCategories (sL uL : String) (M : Nat) (hM : 0 < M) :
    ∀ cats : List Category,
      (scoredCategories cats sL uL).find? (fun y => y.2 == M)
        = (cats.find? (fun c => catScore c sL uL == M)).map
            (fun c => (c.name, catScore c sL uL)) := by
  intro cats
  induction cats with
  | nil => rfl
  | cons c cs ih =>
    rw [scoredCategories_cons]
    by_cases hceq : catScore c sL uL = M
    · have h0 : 0 < catScore c sL uL := hceq ▸ hM
      rw [if_pos h0]
      have hb : ((fun (y : String × Nat) => y.2 == M) (c.name, catScore c sL uL)) = true := by
        simpa using hceq
      have hc : ((fun c => catScore c sL uL == M) c) = true := by
        simpa using hceq
      rw [find?_cons_pos' (fun y => y.2 == M) (c.name, catScore c sL uL)
          (scoredCategories cs sL uL) hb,
        find?_cons_pos' (fun c => catScore c sL uL == M) c cs hc]
      rfl
    · have hc : ((fun c => catScore c sL uL == M) c) = false := by
        simpa using hceq
      rw [find?_cons_neg' _ c cs hc]
      by_cases h0 : 0 < catScore c sL uL
      · rw [if_pos h0]
        have hb : ((fun (y : String × Nat) => y.2 == M) (c.name, catScore c sL uL)) = false := by
          simpa using hceq
        rw [find?_cons_neg' (fun y => y.2 == M) (c.name, catScore c sL uL)
            (scoredCategories cs sL uL) hb]
        exact ih
      · rw [if_neg h0]
        exact ih

/-! ## Claim theorems: category classifier -/

/-- **C6.** `categorize_newsletter` scores each configured category as
+5 per configured domain contained in the lowered sender, +2 per keyword
(lowered) contained in the lowered subject and +1 per keyword contained in
the lowered sender (`catScore = specCatScore`); it returns the category with
the maximal total score iff that total is ≥ 3 and otherwise `None`, ties
broken in favour of the first-encountered category in configured iteration
order (`find?` of the maximal score). -/
theorem categorize_newsletter_scoring (cats : List Category)
    (senderEmail subject : String) :
    (∀ c ∈ cats,
      catScore c (strLower senderEmail) (strLower subject)
        = specCatScore c (strLower senderEmail) (strLower subject))
    ∧ categorizeNewsletter cats senderEmail subject
        = (if 3 ≤ listMax (cats.map
              (fun c => specCatScore c (strLower senderEmail) (strLower subject)))
           then (cats.find? (fun c =>
              specCatScore c (strLower senderEmail) (strLower subject)
                == listMax (cats.map (fun c =>
                    specCatScore c (strLower senderEmail) (strLower subject))))).map
              Category.name
           else none) := by
  constructor
  · intro c _
    exact catScore_eq_spec c _ _
  · simp only [← catScore_eq_spec]
    set sL := strLower senderEmail
    set uL := strLower subject
    set M := listMax (cats.map (fun c => catScore c sL uL)) with hMdef
    unfold categorizeNewsletter
    cases hsc : scoredCategories cats sL uL with
    | nil =>
      have hM0 : M = 0 := by
        rw [hMdef, ← listMax_scoredCategories sL uL cats, hsc]
        rfl
      rw [hM0]
      rfl
    | cons x xs =>
      show (if 3 ≤ (xs.foldl (fun b y => if b.2 < y.2 then y else b) x).2
          then some (xs.foldl (fun b y => if b.2 < y.2 then y else b) x).1
          else none) = _
      have hfind := pickBest_eq_find? xs x
      rw [← hsc] at hfind
      have hMsc : listMax ((scoredCategories cats sL uL).map Prod.snd) = M := by
        rw [hMdef, listMax_scoredCategories]
      rw [hMsc] at hfind
      set best := xs.foldl (fun b y => if b.2 < y.2 then y else b) x with hbest
      have hbestM : best.2 = M := by
        have := List.find?_some hfind
        simpa using this
      by_cases h3 : 3 ≤ M
      · have h0 : 0 < M := lt_of_lt_of_le (by omega) h3
        have hcat := find?_scoredCategories sL uL M h0 cats
        rw [hfind] at hcat
        cases hc : cats.find? (fun c => catScore c sL uL == M) with
        | none => rw [hc] at hcat; simp at hcat
        | some c₀ =>
          rw [hc] at hcat
          simp only [Option.map_some', Option.some.injEq] at hcat
          rw [if_pos (hbestM ▸ h3), if_pos h3]
          simp only [Option.map_some', Option.some.injEq]
          rw [hcat]
      · rw [if_neg (fun hcon => h3 (hbestM ▸ hcon)), if_neg h3]

/-- **C6 witness**: for the default `Tech` category rules and sender
`newsletter@dev.to` with subject `"Weekly Programming Tips"` the score
formula and selection rule apply concretely. -/
theorem categorize_newsletter_scoring_witness :
    (catScore (⟨"Tech", ["programming", "developer", "tech", "software", "coding", "devops", "cloud"], ["dev.to", "hashnode.com", "medium.com", "substack.com"]⟩ : Category) (strLower "newsletter@dev.to") (strLower "Weekly Programming Tips")
        = specCatScore (⟨"Tech", ["programming", "developer", "tech", "software", "coding", "devops", "cloud"], ["dev.to", "hashnode.com", "medium.com", "substack.com"]⟩ : Category) (strLower "newsletter@dev.to") (strLower "Weekly Programming Tips"))
    ∧ categorizeNewsletter [(⟨"Tech", ["programming", "developer", "tech", "software", "coding", "devops", "cloud"], ["dev.to", "hashnode.com", "medium.com", "substack.com"]⟩ : Category)]
        "newsletter@dev.to" "Weekly Programming Tips"
        = (if 3 ≤ listMax ([(⟨"Tech", ["programming", "developer", "tech", "software", "coding", "devops", "cloud"], ["dev.to", "hashnode.com", "medium.com", "substack.com"]⟩ : Category)].map
              (fun c => specCatScore c (strLower "newsletter@dev.to") (strLower "Weekly Programming Tips")))
           then ([(⟨"Tech", ["programming", "developer", "tech", "software", "coding", "devops", "cloud"], ["dev.to", "hashnode.com", "medium.com", "substack.com"]⟩ : Category)].find? (fun c =>
              specCatScore c (strLower "newsletter@dev.to") (strLower "Weekly Programming Tips")
                == listMax ([(⟨"Tech", ["programming", "developer", "tech", "software", "coding", "devops", "cloud"], ["dev.to", "hashnode.com", "medium.com", "substack.com"]⟩ : Category)].map (fun c =>
                    specCatScore c (strLower "newsletter@dev.to") (strLower "Weekly Programming Tips"))))).map
              Category.name
           else none) :=
  ⟨(categorize_newsletter_scoring [(⟨"Tech", ["programming", "developer", "tech", "software", "coding", "devops", "cloud"], ["dev.to", "hashnode.com", "medium.com", "substack.com"]⟩ : Category)]
      "newsletter@dev.to" "Weekly Programming Tips").1 (⟨"Tech", ["programming", "developer", "tech", "software", "coding", "devops", "cloud"], ["dev.to", "hashnode.com", "medium.com", "substack.com"]⟩ : Category)
      (List.mem_singleton_self _),
   (categorize_newsletter_scoring [(⟨"Tech", ["programming", "developer", "tech", "software", "coding", "devops", "cloud"], ["dev.to", "hashnode.com", "medium.com", "substack.com"]⟩ : Category)]
      "newsletter@dev.to" "Weekly Programming Tips").2⟩

/-! ## Helper lemmas: fetch orchestrator -/

lemma retryFetch_err_step {M : Type} (tok : Option String) (e : String)
    (oracle : List (PageResp M)) (rem retryIdx consec : Nat)
    (hre : isRateLimitError e = true) (hlt : retryIdx < maxRetries - 1) :
    retryFetch tok (rem + 1) retryIdx consec (PageResp.err e :: oracle)
      = ⟨(retryFetch tok rem (retryIdx + 1) (consec + 1) oracle).outcome,
         (retryFetch tok rem (retryIdx + 1) (consec + 1) oracle).rest,
         (retryIdx + 2) * 20 :: (retryFetch tok rem (retryIdx + 1) (consec + 1) oracle).waits,
         tok :: (retryFetch tok rem (retryIdx + 1) (consec + 1) oracle).calls,
         (retryFetch tok rem (retryIdx + 1) (consec + 1) oracle).consec⟩ := by
  simp only [retryFetch]
  rw [if_pos hre, if_pos hlt]

lemma retryFetch_ok_lemma {M : Type} (tok : Option String) :
    ∀ (errs : List String) (retryIdx remaining consec : Nat) (p : List M)
      (t : Option String) (rest : List (PageResp M)),
      (∀ e ∈ errs, isRateLimitError e = true) →
      retryIdx + remaining = 5 →
      retryIdx + errs.length ≤ 4 →
      retryFetch tok remaining retryIdx consec
          (errs.map PageResp.err ++ PageResp.ok p t :: rest)
        = ⟨some (.ok (p, t)), rest, backoffWaits retryIdx errs.length,
            List.replicate (errs.length + 1) tok, 0⟩ := by
  intro errs
  induction errs with
  | nil =>
    intro retryIdx remaining consec p t rest _ hrem hle
    obtain ⟨rem', rfl⟩ : ∃ r', remaining = r' + 1 := ⟨remaining - 1, by omega⟩
    rfl
  | cons e es ih =>
    intro retryIdx remaining consec p t rest hrl hrem hle
    obtain ⟨rem', rfl⟩ : ∃ r', remaining = r' + 1 := ⟨remaining - 1, by omega⟩
    have hre : isRateLimitError e = true := hrl e (List.mem_cons_self e es)
    have hlt : retryIdx < maxRetries - 1 := by
      unfold maxRetries
      simp only [List.length_cons] at hle
      omega
    rw [List.map_cons, List.cons_append,
      retryFetch_err_step tok e _ rem' retryIdx consec hre hlt,
      ih (retryIdx + 1) rem' (consec + 1) p t rest
        (fun x hx => hrl x (List.mem_cons_of_mem e hx)) (by omega)
        (by simp only [List.length_cons] at hle; omega)]
    rfl

lemma retryFetch_exhaust_lemma {M : Type} (tok : Option String) :
    ∀ (errs : List String) (elast : String) (retryIdx remaining consec : Nat)
      (rest : List (PageResp M)),
      (∀ e ∈ errs, isRateLimitError e = true) →
      isRateLimitError elast = true →
      retryIdx + remaining = 5 →
      retryIdx + errs.length = 4 →
      retryFetch tok remaining retryIdx consec
          (errs.map PageResp.err ++ PageResp.err elast :: rest)
        = ⟨some (.error elast), rest, backoffWaits retryIdx errs.length,
            List.replicate (errs.length + 1) tok, consec + errs.length + 1⟩ := by
  intro errs
  induction errs with
  | nil =>
    intro elast retryIdx remaining consec rest _ hlast hrem hidx
    obtain ⟨rem', rfl⟩ : ∃ r', remaining = r' + 1 := ⟨remaining - 1, by omega⟩
    have h4 : retryIdx = 4 := by simpa using hidx
    subst h4
    simp only [List.map_nil, List.nil_append, retryFetch]
    rw [if_pos hlast, if_neg (by unfold maxRetries; omega)]
    rfl
  | cons e es ih =>
    intro elast retryIdx remaining consec rest hrl hlast hrem hidx
    obtain ⟨rem', rfl⟩ : ∃ r', remaining = r' + 1 := ⟨remaining - 1, by omega⟩
    have hre : isRateLimitError e = true := hrl e (List.mem_cons_self e es)
    have hlt : retryIdx < maxRetries - 1 := by
      unfold maxRetries
      simp only [List.length_cons] at hidx
      omega
    rw [List.map_cons, List.cons_append,
      retryFetch_err_step tok e _ rem' retryIdx consec hre hlt,
      ih elast (retryIdx + 1) rem' (consec + 1) rest
        (fun x hx => hrl x (List.mem_cons_of_mem e hx)) hlast (by omega)
        (by simp only [List.length_cons] at hidx; omega)]
    simp only [RetryOut.mk.injEq, List.length_cons, true_and]
    refine ⟨rfl, rfl, ?_⟩
    omega

lemma retryFetch_fatal_lemma {M : Type} (tok : Option String) :
    ∀ (errs : List String) (bad : String) (retryIdx remaining consec : Nat)
      (rest : List (PageResp M)),
      (∀ e ∈ errs, isRateLimitError e = true) →
      isRateLimitError bad = false →
      retryIdx + remaining = 5 →
      retryIdx + errs.length ≤ 4 →
      retryFetch tok remaining retryIdx consec
          (errs.map PageResp.err ++ PageResp.err bad :: rest)
        = ⟨some (.error bad), rest, backoffWaits retryIdx errs.length,
            List.replicate (errs.length + 1) tok, consec + errs.length⟩ := by
  intro errs
  induction errs with
  | nil =>
    intro bad retryIdx remaining consec rest _ hbad hrem _
    obtain ⟨rem', rfl⟩ : ∃ r', remaining = r' + 1 := ⟨remaining - 1, by omega⟩
    simp only [List.map_nil, List.nil_append, retryFetch]
    rw [if_neg (by rw [hbad]; exact Bool.false_ne_true)]
    rfl
  | cons e es ih =>
    intro bad retryIdx remaining consec rest hrl hbad hrem hle
    obtain ⟨rem', rfl⟩ : ∃ r', remaining = r' + 1 := ⟨remaining - 1, by omega⟩
    have hre : isRateLimitError e = true := hrl e (List.mem_cons_self e es)
    have hlt : retryIdx < maxRetries - 1 := by
      unfold maxRetries
      simp only [List.length_cons] at hle
      omega
    rw [List.map_cons, List.cons_append,
      retryFetch_err_step tok e _ rem' retryIdx consec hre hlt,
      ih bad (retryIdx + 1) rem' (consec + 1) rest
        (fun x hx => hrl x (List.mem_cons_of_mem e hx)) hbad (by omega)
        (by simp only [List.length_cons] at hle; omega)]
    simp only [RetryOut.mk.injEq, List.length_cons, true_and]
    refine ⟨rfl, rfl, ?_⟩
    omega

/-! ## Claim theorems: fetch orchestrator -/

/-- **C4 (amended).** In `search_all_messages`, a page fetch failing with
rate-limit-class errors is retried on the same page token (every call in the
burst logs the same token) within a budget of 5 attempts, with backoff waits
`(attempt + 2) * 20` for attempt indices 0..3 — i.e. `40, 60, 80, 100`, four
waits, not `20, 40, 60, 80, 100` — the consecutive-failure counter grows by
one per rate-limited attempt and resets to zero on any success; exhausting
the budget surfaces the last error; and a non-rate-limit failure propagates
immediately without retry (only the failing call is made, no wait follows
it). -/
theorem search_all_messages_retry_policy {M : Type} (errs : List String)
    (p : List M) (elast bad : String) (rest : List (PageResp M))
    (hrl : ∀ e ∈ errs, isRateLimitError e = true) :
    (errs.length ≤ 4 →
      searchAllMessages none (errs.map PageResp.err ++ [PageResp.ok p none])
        = ⟨some (.ok p), backoffWaits 0 errs.length,
            List.replicate (errs.length + 1) none, 0⟩)
    ∧ (errs.length = 4 → isRateLimitError elast = true →
      searchAllMessages none (errs.map PageResp.err ++ PageResp.err elast :: rest)
        = ⟨some (.error elast), backoffWaits 0 4, List.replicate 5 none, 5⟩)
    ∧ (errs.length ≤ 4 → isRateLimitError bad = false →
      searchAllMessages none (errs.map PageResp.err ++ PageResp.err bad :: rest)
        = ⟨some (.error bad), backoffWaits 0 errs.length,
            List.replicate (errs.length + 1) none, errs.length⟩)
    ∧ backoffWaits 0 4 = [40, 60, 80, 100] := by
  refine ⟨?_, ?_, ?_, by decide⟩
  · intro hlen
    simp only [searchAllMessages, pageLoop]
    rw [retryFetch_ok_lemma none errs 0 maxRetries 0 p none [] hrl rfl
      (by omega)]
    cases p <;> rfl
  · intro hlen hlast
    simp only [searchAllMessages, pageLoop]
    rw [retryFetch_exhaust_lemma none errs elast 0 maxRetries 0 rest hrl hlast rfl
      (by omega)]
    dsimp only
    rw [hlen]
  · intro hlen hbad
    simp only [searchAllMessages, pageLoop]
    rw [retryFetch_fatal_lemma none errs bad 0 maxRetries 0 rest hrl hbad rfl
      (by omega)]
    dsimp only
    rw [Nat.zero_add]

/-- **C4 witness**: four rate-limited attempts then a success, an
exhaustion run, and an immediate non-rate-limit failure, all at concrete
inputs. -/
theorem search_all_messages_retry_policy_witness :
    (searchAllMessages none
        (["429 a", "429 b", "429 c", "429 d"].map PageResp.err ++ [PageResp.ok [0] none])
      = ⟨some (.ok [0]),
          backoffWaits 0 (["429 a", "429 b", "429 c", "429 d"].length),
          List.replicate ((["429 a", "429 b", "429 c", "429 d"].length) + 1) none, 0⟩)
    ∧ (searchAllMessages none
        (["429 a", "429 b", "429 c", "429 d"].map PageResp.err
          ++ PageResp.err "rateLimitExceeded" :: ([] : List (PageResp (List Nat))))
      = ⟨some (.error "rateLimitExceeded"), backoffWaits 0 4, List.replicate 5 none, 5⟩)
    ∧ (searchAllMessages none
        (["429 a", "429 b", "429 c", "429 d"].map PageResp.err
          ++ PageResp.err "boom" :: ([] : List (PageResp (List Nat))))
      = ⟨some (.error "boom"),
          backoffWaits 0 (["429 a", "429 b", "429 c", "429 d"].length),
          List.replicate ((["429 a", "429 b", "429 c", "429 d"].length) + 1) none,
          ["429 a", "429 b", "429 c", "429 d"].length⟩) := by
  refine ⟨?_, ?_, ?_⟩
  · exact (search_all_messages_retry_policy ["429 a", "429 b", "429 c", "429 d"]
      [0] "rateLimitExceeded" "boom" [] (by decide)).1 (by decide)
  · exact (search_all_messages_retry_policy ["429 a", "429 b", "429 c", "429 d"]
      ([[0]] : List (List Nat)) "rateLimitExceeded" "boom" [] (by decide)).2.1
      (by decide) (by decide)
  · exact (search_all_messages_retry_policy ["429 a", "429 b", "429 c", "429 d"]
      ([[0]] : List (List Nat)) "rateLimitExceeded" "boom" [] (by decide)).2.2.1
      (by decide) (by decide)

/-- **C4 counterexample.** A single rate-limited failure followed by a
success performs one backoff wait of `(0 + 2) * 20 = 40` time-units, not the
`20` the claim's enumeration `20, 40, 60, 80, 100` asserts for the first
retry. -/
theorem search_all_messages_retry_policy_counterexample :
    (searchAllMessages none [PageResp.err "429", PageResp.ok ([] : List Nat) none]).waits
        = [40]
    ∧ (searchAllMessages none [PageResp.err "429", PageResp.ok ([] : List Nat) none]).waits
        ≠ [20] := by
  constructor
  · rfl
  · decide

lemma retryFetch_ok_head {M : Type} (tok : Option String) (c : Nat) (p : List M)
    (t : Option String) (rest : List (PageResp M)) :
    retryFetch tok maxRetries 0 c (PageResp.ok p t :: rest)
      = ⟨some (.ok (p, t)), rest, [], [tok], 0⟩ := rfl

lemma pageLoop_goodPages_nocap {M : Type} :
    ∀ (pages : List (List M × Option String)) (acc : List M) (tok : Option String)
      (fuel c : Nat),
      pages ≠ [] → GoodPages pages → pages.length ≤ fuel →
      (pageLoop none fuel (pagesOracle pages) acc tok c).result
          = some (.ok (acc ++ pagesConcat pages))
        ∧ (pageLoop none fuel (pagesOracle pages) acc tok c).waits = []
        ∧ (pageLoop none fuel (pagesOracle pages) acc tok c).calls.length = pages.length
        ∧ (pageLoop none fuel (pagesOracle pages) acc tok c).consec = 0 := by
  intro pages
  induction pages with
  | nil => intro acc tok fuel c h; exact absurd rfl h
  | cons pt rest ih =>
    intro acc tok fuel c _ hgood hfuel
    obtain ⟨f', rfl⟩ : ∃ f', fuel = f' + 1 :=
      ⟨fuel - 1, by simp only [List.length_cons] at hfuel; omega⟩
    rw [show pagesOracle (pt :: rest) = PageResp.ok pt.1 pt.2 :: pagesOracle rest from rfl]
    cases rest with
    | nil =>
      have htok : tokFalsy pt.2 = true := hgood
      cases hp1 : pt.1 with
      | nil =>
        refine ⟨?_, ?_, ?_, ?_⟩ <;>
          simp [pageLoop, retryFetch_ok_head, htok, pagesConcat, hp1]
      | cons a as =>
        refine ⟨?_, ?_, ?_, ?_⟩ <;>
          simp [pageLoop, retryFetch_ok_head, htok, pagesConcat, hp1]
    | cons p2 rest2 =>
      obtain ⟨hne, htok, hgood'⟩ := hgood
      have hfuel' : (p2 :: rest2).length ≤ f' := by
        simp only [List.length_cons] at hfuel ⊢
        omega
      obtain ⟨h1, h2, h3, h4⟩ :=
        ih (acc ++ pt.1) pt.2 f' 0 (List.cons_ne_nil _ _) hgood' hfuel'
      cases hp1 : pt.1 with
      | nil => exact absurd hp1 hne
      | cons a as =>
        rw [hp1] at h1 h2 h3 h4
        refine ⟨?_, ?_, ?_, ?_⟩ <;>
          simp [pageLoop, retryFetch_ok_head, htok, pagesConcat, h1, h2, h3, h4] <;>
          simp [hp1]

lemma take_append_le {α : Type} :
    ∀ (m : Nat) (l₁ l₂ : List α), m ≤ l₁.length → (l₁ ++ l₂).take m = l₁.take m := by
  intro m l₁
  induction l₁ generalizing m with
  | nil =>
    intro l₂ h
    have hm : m = 0 := by simpa using h
    subst hm
    rfl
  | cons a t ih =>
    intro l₂ h
    cases m with
    | zero => rfl
    | succ m' =>
      show a :: (t ++ l₂).take m' = a :: t.take m'
      rw [ih m' l₂ (by simpa using h)]

lemma pagesNeeded_singleton {M : Type} (m : Nat) (pt : List M × Option String) :
    pagesNeeded m [pt] = 1 := by
  unfold pagesNeeded
  split <;> rfl

lemma pageLoop_goodPages_cap {M : Type} :
    ∀ (pages : List (List M × Option String)) (acc : List M) (tok : Option String)
      (fuel c m : Nat),
      pages ≠ [] → GoodPages pages → pages.length ≤ fuel → acc.length < m →
      (pageLoop (some m) fuel (pagesOracle pages) acc tok c).result
          = some (.ok ((acc ++ pagesConcat pages).take m))
        ∧ (pageLoop (some m) fuel (pagesOracle pages) acc tok c).waits = []
        ∧ (pageLoop (some m) fuel (pagesOracle pages) acc tok c).calls.length
            = pagesNeeded (m - acc.length) pages
        ∧ (pageLoop (some m) fuel (pagesOracle pages) acc tok c).consec = 0 := by
  intro pages
  induction pages with
  | nil => intro acc tok fuel c m h; exact absurd rfl h
  | cons pt rest ih =>
    intro acc tok fuel c m _ hgood hfuel hacc
    obtain ⟨f', rfl⟩ : ∃ f', fuel = f' + 1 :=
      ⟨fuel - 1, by simp only [List.length_cons] at hfuel; omega⟩
    rw [show pagesOracle (pt :: rest) = PageResp.ok pt.1 pt.2 :: pagesOracle rest from rfl]
    have hm0 : m ≠ 0 := by omega
    cases rest with
    | nil =>
      have htok : tokFalsy pt.2 = true := hgood
      cases hp1 : pt.1 with
      | nil =>
        refine ⟨?_, ?_, ?_, ?_⟩ <;>
          simp [pageLoop, retryFetch_ok_head, htok, pagesConcat, hp1,
            pagesNeeded_singleton, List.take_of_length_le (Nat.le_of_lt hacc)]
      | cons a as =>
        by_cases hcap : m ≤ (acc ++ pt.1).length
        · have hcap2 : m ≤ acc.length + (as.length + 1) := by
            rw [hp1] at hcap
            simp only [List.length_append, List.length_cons] at hcap
            omega
          refine ⟨?_, ?_, ?_, ?_⟩ <;>
            simp [pageLoop, retryFetch_ok_head, hm0, pagesConcat, hp1,
              pagesNeeded_singleton, hcap2, htok]
        · have hcap2 : ¬(m ≤ acc.length + (as.length + 1)) := by
            rw [hp1] at hcap
            simp only [List.length_append, List.length_cons] at hcap
            omega
          have hlen : (acc ++ a :: as).length < m := by
            rw [hp1] at hcap
            simp only [List.length_append, List.length_cons] at hcap ⊢
            omega
          refine ⟨?_, ?_, ?_, ?_⟩ <;>
            simp [pageLoop, retryFetch_ok_head, hm0, pagesConcat, hp1,
              pagesNeeded_singleton, htok, hcap2,
              List.take_of_length_le (Nat.le_of_lt hlen)]
    | cons p2 rest2 =>
      obtain ⟨hne, htok, hgood'⟩ := hgood
      have hfuel' : (p2 :: rest2).length ≤ f' := by
        simp only [List.length_cons] at hfuel ⊢
        omega
      cases hp1 : pt.1 with
      | nil => exact absurd hp1 hne
      | cons a as =>
        by_cases hcap : m ≤ (acc ++ a :: as).length
        · have hcap2 : m ≤ acc.length + (as.length + 1) := by
            simp only [List.length_append, List.length_cons] at hcap
            omega
          have htake2 : (acc ++ a :: (as ++ (p2.1 ++ List.foldr
                (fun q acc => q.1 ++ acc) [] rest2))).take m
              = (acc ++ a :: as).take m := by
            rw [show acc ++ a :: (as ++ (p2.1 ++ List.foldr
                  (fun q acc => q.1 ++ acc) [] rest2))
                = (acc ++ a :: as) ++ (p2.1 ++ List.foldr
                  (fun q acc => q.1 ++ acc) [] rest2) by simp]
            exact take_append_le m _ _ hcap
          have hneed : pagesNeeded (m - acc.length) (pt :: p2 :: rest2) = 1 := by
            unfold pagesNeeded
            rw [if_pos (by rw [hp1]; simp only [List.length_append, List.length_cons] at hcap ⊢; omega)]
          refine ⟨?_, ?_, ?_, ?_⟩ <;>
            simp [pageLoop, retryFetch_ok_head, hm0, pagesConcat, hp1, hneed,
              hcap2, htok, htake2]
        · have hacc' : (acc ++ a :: as).length < m := by omega
          have hcap2 : ¬(m ≤ acc.length + (as.length + 1)) := by
            simp only [List.length_append, List.length_cons] at hacc'
            omega
          obtain ⟨h1, h2, h3, h4⟩ :=
            ih (acc ++ pt.1) pt.2 f' 0 m (List.cons_ne_nil _ _) hgood' hfuel' (by rw [hp1]; omega)
          rw [hp1] at h1 h2 h3 h4
          have hneed : pagesNeeded (m - acc.length) (pt :: p2 :: rest2)
              = 1 + pagesNeeded (m - (acc ++ a :: as).length) (p2 :: rest2) := by
            unfold pagesNeeded
            rw [if_neg (by rw [hp1]; simp only [List.length_append] at hacc' ⊢; omega)]
            rw [hp1]
            have heq : m - acc.length - (a :: as).length = m - (acc ++ a :: as).length := by
              simp only [List.length_append]
              omega
            rw [heq]
            rfl
          refine ⟨?_, ?_, ?_, ?_⟩ <;>
            simp [pageLoop, retryFetch_ok_head, hm0, pagesConcat, hp1, hneed,
              hcap2, htok, h1, h2, h3, h4] <;>
            (try simp [hp1]) <;> (try omega)

/-- **C5 (amended).** For a source serving pages `p1, ..., pk` (`k ≥ 1`)
where every page before the last is nonempty and carries a truthy
next-page token and the last page's token is falsy, `search_all_messages`
with no cap returns exactly `p1 ++ ... ++ pk` — in source order, nothing
skipped or duplicated — fetching exactly `k` pages; with a cap of `M ≥ 1`
it returns exactly the first `M` elements of that concatenation, truncating
the final fetched page and fetching no page beyond the first whose
cumulative size reaches the cap.  (The nonemptiness proviso is necessary:
the loop treats an empty page as the end of the stream and drops any pages
after it.) -/
theorem search_all_messages_pagination {M : Type}
    (pages : List (List M × Option String)) (m : Nat)
    (hne : pages ≠ []) (hgood : GoodPages pages) :
    ((searchAllMessages none (pagesOracle pages)).result
        = some (.ok (pagesConcat pages))
      ∧ (searchAllMessages none (pagesOracle pages)).calls.length = pages.length)
    ∧ (1 ≤ m →
      (searchAllMessages (some m) (pagesOracle pages)).result
          = some (.ok ((pagesConcat pages).take m))
        ∧ (searchAllMessages (some m) (pagesOracle pages)).calls.length
            = pagesNeeded m pages) := by
  have hlen : (pagesOracle pages).length = pages.length := by
    simp [pagesOracle]
  constructor
  · obtain ⟨h1, _, h3, _⟩ :=
      pageLoop_goodPages_nocap pages [] none ((pagesOracle pages).length + 1) 0
        hne hgood (by omega)
    exact ⟨by simpa using h1, h3⟩
  · intro hm
    obtain ⟨h1, _, h3, _⟩ :=
      pageLoop_goodPages_cap pages [] none ((pagesOracle pages).length + 1) 0 m
        hne hgood (by omega) (by simpa using hm)
    refine ⟨by simpa using h1, ?_⟩
    rw [show (m - ([] : List M).length) = m by simp] at h3
    exact h3

/-- **C5 witness**: pages `[1, 2]` then `[3]` yield `[1, 2, 3]` with no cap
(two fetches), and `[1, 2]` with cap 2 (one fetch). -/
theorem search_all_messages_pagination_witness :
    (((searchAllMessages none (pagesOracle [([1, 2], some "t"), ([3], none)])).result
        = some (.ok (pagesConcat [([1, 2], some "t"), ([3], none)]))
      ∧ (searchAllMessages none (pagesOracle [([1, 2], some "t"), ([3], none)])).calls.length
          = ([([1, 2], some "t"), ([3], none)] : List (List Nat × Option String)).length)
    ∧ ((searchAllMessages (some 2) (pagesOracle [([1, 2], some "t"), ([3], none)])).result
        = some (.ok ((pagesConcat [([1, 2], some "t"), ([3], none)]).take 2))
      ∧ (searchAllMessages (some 2) (pagesOracle [([1, 2], some "t"), ([3], none)])).calls.length
          = pagesNeeded 2 [([1, 2], some "t"), ([3], none)])) :=
  ⟨(search_all_messages_pagination [([1, 2], some "t"), ([3], none)] 2
      (by simp) ⟨by simp, rfl, rfl⟩).1,
   (search_all_messages_pagination [([1, 2], some "t"), ([3], none)] 2
      (by simp) ⟨by simp, rfl, rfl⟩).2 (by omega)⟩

/-- **C5 counterexample.** A source whose first page is empty but carries a
next-page token, followed by a nonempty final page, makes
`search_all_messages` stop at the empty page: it returns `[]`, not the
claimed full concatenation `[10]` — so the claim as stated (for every
source, nothing is skipped) is false. -/
theorem search_all_messages_pagination_counterexample :
    (searchAllMessages none
        [PageResp.ok ([] : List Nat) (some "t"), PageResp.ok [10] none]).result
        = some (.ok ([] : List Nat))
    ∧ (searchAllMessages none
        [PageResp.ok ([] : List Nat) (some "t"), PageResp.ok [10] none]).result
        ≠ some (.ok [10]) := by
  refine ⟨rfl, ?_⟩
  intro h
  rw [show (searchAllMessages none
      [PageResp.ok ([] : List Nat) (some "t"), PageResp.ok [10] none]).result
      = some (.ok ([] : List Nat)) from rfl] at h
  simp at h

end NewsletterManager
